import Mathlib

/-!
Shallow embedding of the block-identifier resolution and chain-notification
subsystem of the gateway (src/gateway/src/impls/eth.rs and
src/gateway/src/impls/eth_pubsub.rs), with theorems settling the spec claims.

Machine words (u64 block numbers, 256-bit hashes, addresses) are modelled as
`Nat`; none of the verified paths performs arithmetic that can overflow, they
only move the values around and compare them. Opaque payloads owned by
external collaborators (state handles, headers, log entries, transactions,
call requests) are modelled as `Nat` tokens.
-/

namespace Gateway

/-- Wire-level symbolic block reference (`parity_rpc::v1::types::BlockNumber`):
`Num(u64) | Latest | Earliest | Pending`. -/
inductive BlockNumber where
  | Num : Nat → BlockNumber
  | Latest : BlockNumber
  | Earliest : BlockNumber
  | Pending : BlockNumber
deriving DecidableEq, Repr

/-- Backend block identifier (`ethcore::client::BlockId`):
`Hash(H256) | Number(u64) | Earliest | Latest`. Hashes are modelled as `Nat`. -/
inductive BlockId where
  | Hash : Nat → BlockId
  | Number : Nat → BlockId
  | Earliest : BlockId
  | Latest : BlockId
deriving DecidableEq, Repr

/-- `ethcore::client::StateOrBlock`. The gateway only ever constructs the
`Block` variant (via `BlockId::into`); the `State` variant carries an opaque
backend state handle and never appears in this code. -/
inductive StateOrBlock where
  | State : Nat → StateOrBlock
  | Block : BlockId → StateOrBlock
deriving DecidableEq, Repr

/-- `ethcore::block_status::BlockStatus`. -/
inductive BlockStatus where
  | InChain : BlockStatus
  | Queued : BlockStatus
  | Bad : BlockStatus
  | Unknown : BlockStatus
deriving DecidableEq, Repr

/-- The error taxonomy surfaced by the facade (`parity_rpc` `errors::*`
constructors used in the two source files). -/
inductive RpcError where
  | UnknownBlock : RpcError
  | StatePruned : RpcError
  | Database : String → RpcError
  | Decode : RpcError
  | CallError : String → RpcError
  | VM : String → List Nat → RpcError
  | InvalidParams : String → String → RpcError
  | Unimplemented : RpcError
  | Deprecated : String → RpcError
deriving DecidableEq, Repr

/-- Backend's native log filter (`ethcore::filter::Filter`): block range,
address and topic constraints, optional result limit. Addresses and topics
are opaque `Nat`s. -/
structure EthFilter where
  from_block : BlockId
  to_block : BlockId
  address : Option (List Nat)
  topics : List (Option (List Nat))
  limit : Option Nat
deriving DecidableEq, Repr

/-- An encoded header handle (`ethcore::encoded::Header`); `decoded` is the
result of `.decode()`, `none` modelling a decode failure. -/
structure EncodedHeader where
  decoded : Option Nat
deriving DecidableEq, Repr

/-- Result of executing a call against the backend
(`ethcore::client::Executed`): optional runtime exception and output bytes. -/
structure Executed where
  exception : Option String
  output : List Nat
deriving DecidableEq, Repr

/-- `ethcore::client::TransactionId`. -/
inductive TransactionId where
  | Hash : Nat → TransactionId
  | Location : BlockId → Nat → TransactionId
deriving DecidableEq, Repr

/-- The Backend Client as seen by the two source files: the minimal surface
the gateway calls (`client::Client` plus the `ethcore` client traits).
Every field is a query the gateway issues; the backend's behaviour is left
arbitrary. `hash_block_number` and `best_block_number` support the
spec-modelled block-number comparison helpers. -/
structure Client where
  best_block_number : Nat
  block_status : BlockId → BlockStatus
  nonce : Nat → BlockId → Option Nat
  balanceAt : Nat → StateOrBlock → Option Nat
  state_at : BlockId → Option Nat
  block_header : BlockId → Option EncodedHeader
  transaction : TransactionId → Option Nat
  logs : EthFilter → List Nat
  callExec : Nat → Nat → Nat → Except String Executed
  estimateGasExec : Nat → Nat → Nat → Except String Nat
  hash_block_number : Nat → Nat

/-- `EthClient::get_state` (eth.rs, lines 198-207): resolve a wire block
reference to the backend state key; "for pending, just use latest block". -/
def get_state (number : BlockNumber) : StateOrBlock :=
  match number with
  | .Num num => .Block (.Number num)
  | .Earliest => .Block .Earliest
  | .Latest => .Block .Latest
  | .Pending => .Block .Latest

/-- The block-id resolution inlined in `EthClient::rich_block`
(eth.rs, lines 111-116): "for pending, just use latest block". -/
def rich_block_id (num : BlockNumber) : BlockId :=
  match num with
  | .Latest => .Latest
  | .Earliest => .Earliest
  | .Num n => .Number n
  | .Pending => .Latest

/-- The block-id resolution inlined in `EthClient::call`
(eth.rs, lines 506-511). -/
def call_block_id (num : BlockNumber) : BlockId :=
  match num with
  | .Num num => .Number num
  | .Earliest => .Earliest
  | .Latest => .Latest
  | .Pending => .Latest

/-- The block-id resolution inlined in `EthClient::estimate_gas`
(eth.rs, lines 550-555); textually duplicated from `call`. -/
def estimate_gas_block_id (num : BlockNumber) : BlockId :=
  match num with
  | .Num num => .Number num
  | .Earliest => .Earliest
  | .Latest => .Latest
  | .Pending => .Latest

/-- The id computed inside `check_known` (eth.rs, lines 212-218); `none`
models the early `return Ok(())` taken for `Pending`. -/
def check_known_id (number : BlockNumber) : Option BlockId :=
  match number with
  | .Pending => none
  | .Num n => some (.Number n)
  | .Latest => some .Latest
  | .Earliest => some .Earliest

/-- `check_known` (eth.rs, lines 209-224): `Pending` passes trivially;
otherwise the block must be `InChain`, anything else is `UnknownBlock`. -/
def check_known (client : Client) (number : BlockNumber) : Except RpcError Unit :=
  match check_known_id number with
  | none => .ok ()
  | some id =>
    match client.block_status id with
    | .InChain => .ok ()
    | _ => .error .UnknownBlock

/-- C2: block-reference resolution is total (every reference yields a concrete
backend key, no failure path), and `Pending` resolves exactly like `Latest` in
every resolver the query operations use: `get_state` (shared by balance,
storage_at, code_at), `rich_block`, `call`, and `estimate_gas`. -/
theorem resolve_total_and_pending_eq_latest :
    (∀ num : BlockNumber, ∃ id : BlockId, get_state num = StateOrBlock.Block id) ∧
    get_state BlockNumber.Pending = get_state BlockNumber.Latest ∧
    rich_block_id BlockNumber.Pending = rich_block_id BlockNumber.Latest ∧
    call_block_id BlockNumber.Pending = call_block_id BlockNumber.Latest ∧
    estimate_gas_block_id BlockNumber.Pending = estimate_gas_block_id BlockNumber.Latest := by
  refine ⟨fun num => ?_, rfl, rfl, rfl, rfl⟩
  cases num <;> exact ⟨_, rfl⟩

/-- C5: `check_known` succeeds for `Pending` regardless of backend state; for
any other reference it resolves the corresponding backend id and returns `Ok`
exactly when the backend reports that block `InChain`, and `UnknownBlock` in
every other case. -/
theorem check_known_spec (c : Client) (num : BlockNumber) :
    check_known c BlockNumber.Pending = Except.ok () ∧
    (check_known_id num = none ↔ num = BlockNumber.Pending) ∧
    (∀ id : BlockId, check_known_id num = some id →
      ((check_known c num = Except.ok ()) ↔ c.block_status id = BlockStatus.InChain) ∧
      (c.block_status id ≠ BlockStatus.InChain →
        check_known c num = Except.error RpcError.UnknownBlock)) := by
  refine ⟨rfl, ?_, ?_⟩
  · cases num <;> simp [check_known_id]
  · intro id hid
    have hck : check_known c num =
        (match c.block_status id with
          | BlockStatus.InChain => Except.ok ()
          | _ => Except.error RpcError.UnknownBlock) := by
      cases num <;> simp [check_known_id] at hid <;> subst hid <;> rfl
    constructor
    · rw [hck]
      cases c.block_status id <;> simp
    · intro hne
      rw [hck]
      revert hne
      cases c.block_status id <;> simp

/-- Witness for C5 at a concrete backend: a client whose block 3 is in chain. -/
def inChainClient : Client where
  best_block_number := 10
  block_status := fun _ => .InChain
  nonce := fun _ _ => some 0
  balanceAt := fun _ _ => some 0
  state_at := fun _ => some 0
  block_header := fun _ => some ⟨some 0⟩
  transaction := fun _ => none
  logs := fun _ => []
  callExec := fun _ _ _ => .ok ⟨none, []⟩
  estimateGasExec := fun _ _ _ => .ok 0
  hash_block_number := fun h => h

theorem check_known_spec_witness :
    (check_known inChainClient (BlockNumber.Num 3) = Except.ok ()) ↔
      inChainClient.block_status (BlockId.Number 3) = BlockStatus.InChain :=
  ((check_known_spec inChainClient (BlockNumber.Num 3)).2.2 (BlockId.Number 3) rfl).1

/-- `parity_rpc::v1::types::block_number_to_id` (external helper used by
`transaction_count` for non-pending references): the standard wire-to-backend
mapping, collapsing `Pending` to `Latest`. -/
def block_number_to_id (number : BlockNumber) : BlockId :=
  match number with
  | .Num n => .Number n
  | .Earliest => .Earliest
  | .Latest => .Latest
  | .Pending => .Latest

/-- `EthClient::transaction_count` (eth.rs, lines 299-321). `Pending` reads
the nonce at `Latest` without any guard and a missing nonce is a `Database`
error; every other reference is guarded by `check_known` and a missing nonce
is `StatePruned`. -/
def transaction_count (c : Client) (address : Nat) (num : BlockNumber) :
    Except RpcError Nat :=
  match num with
  | .Pending =>
    match c.nonce address .Latest with
    | some nonce => .ok nonce
    | none => .error (.Database "latest nonce missing")
  | number =>
    match check_known c number with
    | .error e => .error e
    | .ok _ =>
      match c.nonce address (block_number_to_id number) with
      | some nonce => .ok nonce
      | none => .error .StatePruned

/-- C4: `transaction_count(addr, Pending)` is independent of the backend's
block-status oracle (the only thing the guard consults), reads the nonce at
`Latest`, and maps a missing nonce to `Database`, not `StatePruned`; for every
other reference the guard runs first and its error propagates verbatim, and a
missing nonce after a passing guard is `StatePruned`. -/
theorem transaction_count_spec (c : Client) (address : Nat) :
    (∀ st : BlockId → BlockStatus,
      transaction_count { c with block_status := st } address BlockNumber.Pending =
        transaction_count c address BlockNumber.Pending) ∧
    (∀ n : Nat, c.nonce address BlockId.Latest = some n →
      transaction_count c address BlockNumber.Pending = Except.ok n) ∧
    (c.nonce address BlockId.Latest = none →
      transaction_count c address BlockNumber.Pending =
        Except.error (RpcError.Database "latest nonce missing")) ∧
    (∀ num : BlockNumber, num ≠ BlockNumber.Pending →
      (∀ e : RpcError, check_known c num = Except.error e →
        transaction_count c address num = Except.error e) ∧
      (check_known c num = Except.ok () →
        c.nonce address (block_number_to_id num) = none →
        transaction_count c address num = Except.error RpcError.StatePruned) ∧
      (∀ n : Nat, check_known c num = Except.ok () →
        c.nonce address (block_number_to_id num) = some n →
        transaction_count c address num = Except.ok n)) := by
  refine ⟨?_, ?_, ?_, ?_⟩
  · intro st
    simp [transaction_count]
  · intro n hn
    simp [transaction_count, hn]
  · intro hn
    simp [transaction_count, hn]
  · intro num hne
    refine ⟨?_, ?_, ?_⟩
    · intro e he
      cases num <;> simp_all [transaction_count]
    · intro hok hn
      cases num <;> simp_all [transaction_count]
    · intro n hok hn
      cases num <;> simp_all [transaction_count]

/-- Witness for C4 at a concrete backend: block 7 is in chain, the nonce at
block 7 is absent while the latest nonce is 5. -/
def prunedNonceClient : Client :=
  { inChainClient with
    nonce := fun _ id => if id = BlockId.Latest then some 5 else none }

theorem transaction_count_spec_witness :
    transaction_count prunedNonceClient 0 BlockNumber.Pending = Except.ok 5 ∧
    transaction_count prunedNonceClient 0 (BlockNumber.Num 7) =
      Except.error RpcError.StatePruned :=
  ⟨(transaction_count_spec prunedNonceClient 0).2.1 5 rfl,
   ((transaction_count_spec prunedNonceClient 0).2.2.2 (BlockNumber.Num 7)
      (by simp)).2.1 rfl rfl⟩

/-- `EthClient::call` (eth.rs, lines 493-536). The fake-signing step
(`fake_sign::sign_call`, an external collaborator) is passed in as a function;
the state and decoded header are acquired at the resolved id (`StatePruned`
when either handle is absent, `Decode` when the header fails to decode), the
backend executes the signed call, execution failures surface as `CallError`,
a runtime exception as `VM`, otherwise the output bytes are returned. No
known-block guard is consulted anywhere on this path. -/
def call (fakeSign : Nat → Except RpcError Nat) (c : Client) (request : Nat)
    (num : BlockNumber) : Except RpcError (List Nat) :=
  match fakeSign request with
  | .error e => .error e
  | .ok signed =>
    match c.state_at (call_block_id num) with
    | none => .error .StatePruned
    | some state =>
      match c.block_header (call_block_id num) with
      | none => .error .StatePruned
      | some encoded =>
        match encoded.decoded with
        | none => .error .Decode
        | some header =>
          match c.callExec signed state header with
          | .error msg => .error (.CallError msg)
          | .ok executed =>
            match executed.exception with
            | some exc => .error (.VM exc executed.output)
            | none => .ok executed.output

/-- `EthClient::estimate_gas` (eth.rs, lines 538-574): identical resolution
and state/header acquisition as `call`, then the backend's gas estimator. -/
def estimate_gas (fakeSign : Nat → Except RpcError Nat) (c : Client)
    (request : Nat) (num : BlockNumber) : Except RpcError Nat :=
  match fakeSign request with
  | .error e => .error e
  | .ok signed =>
    match c.state_at (estimate_gas_block_id num) with
    | none => .error .StatePruned
    | some state =>
      match c.block_header (estimate_gas_block_id num) with
      | none => .error .StatePruned
      | some encoded =>
        match encoded.decoded with
        | none => .error .Decode
        | some header =>
          match c.estimateGasExec signed state header with
          | .error msg => .error (.CallError msg)
          | .ok gas => .ok gas

/-- A backend on which every block is unknown and no state is retained. -/
def unknownClient : Client :=
  { inChainClient with
    block_status := fun _ => .Unknown
    state_at := fun _ => none }

/-- An always-succeeding fake signer (the external `fake_sign::sign_call`
never reports a block-related failure). -/
def okSign : Nat → Except RpcError Nat := fun request => .ok request

/-- C3 counterexample: on a backend whose guard reports block 5 unknown
(`check_known` yields `UnknownBlock`), `eth_call` still attempts state
acquisition and returns `StatePruned`, not `UnknownBlock` — the source's
`call` never consults `check_known`. -/
theorem call_counterexample :
    check_known unknownClient (BlockNumber.Num 5) =
      Except.error RpcError.UnknownBlock ∧
    call okSign unknownClient 0 (BlockNumber.Num 5) =
      Except.error RpcError.StatePruned ∧
    estimate_gas okSign unknownClient 0 (BlockNumber.Num 5) =
      Except.error RpcError.StatePruned := by
  refine ⟨rfl, rfl, rfl⟩

/-- C3 (amended): `call` and `estimate_gas` never consult the known-block
guard and can never produce `UnknownBlock` themselves (provided the external
fake signer does not); when the state at the resolved reference is absent,
they fail with `StatePruned`. -/
theorem call_no_guard (fakeSign : Nat → Except RpcError Nat) (c : Client)
    (request : Nat) (num : BlockNumber)
    (hsign : fakeSign request ≠ Except.error RpcError.UnknownBlock) :
    call fakeSign c request num ≠ Except.error RpcError.UnknownBlock ∧
    estimate_gas fakeSign c request num ≠ Except.error RpcError.UnknownBlock ∧
    (∀ signed : Nat, fakeSign request = Except.ok signed →
      c.state_at (call_block_id num) = none →
      call fakeSign c request num = Except.error RpcError.StatePruned) := by
  refine ⟨?_, ?_, ?_⟩
  · unfold call
    repeat' split
    all_goals simp_all
  · unfold estimate_gas
    repeat' split
    all_goals simp_all
  · intro signed hs hstate
    unfold call
    rw [hs]
    simp [hstate]

/-- Witness for the amended C3 on a concrete backend with pruned state. -/
theorem call_no_guard_witness :
    call okSign unknownClient 0 (BlockNumber.Num 5) ≠
      Except.error RpcError.UnknownBlock ∧
    call okSign unknownClient 0 (BlockNumber.Num 5) =
      Except.error RpcError.StatePruned :=
  ⟨(call_no_guard okSign unknownClient 0 (BlockNumber.Num 5) (by simp [okSign])).1,
   (call_no_guard okSign unknownClient 0 (BlockNumber.Num 5)
      (by simp [okSign])).2.2 0 rfl rfl⟩

/-- `PendingOrBlock` (eth.rs, lines 82-85). -/
inductive PendingOrBlock where
  | Block : BlockId → PendingOrBlock
  | Pending : PendingOrBlock
deriving DecidableEq, Repr

/-- `PendingTransactionId` (eth.rs, lines 92-95). -/
inductive PendingTransactionId where
  | Hash : Nat → PendingTransactionId
  | Location : PendingOrBlock → Nat → PendingTransactionId
deriving DecidableEq, Repr

/-- Wire transaction shape; `Transaction::from_localized(t, 0)` is external
serialization, modelled as an injective wrapper around the backend's
localized transaction token. -/
structure WireTransaction where
  ofLocalized : Nat
deriving DecidableEq, Repr

/-- `Transaction::from_localized(t, 0)` (external wire conversion). -/
def from_localized (t : Nat) : WireTransaction :=
  ⟨t⟩

/-- `EthClient::transaction` (eth.rs, lines 173-191): hash and concrete-block
locations are looked up in the backend; a `Pending` location returns `None`
("we don't have pending blocks"). -/
def transaction (c : Client) (id : PendingTransactionId) :
    Except RpcError (Option WireTransaction) :=
  match id with
  | .Hash hash => .ok ((c.transaction (.Hash hash)).map from_localized)
  | .Location (.Block block) index =>
    .ok ((c.transaction (.Location block index)).map from_localized)
  | .Location .Pending _ => .ok none

/-- `EthClient::transaction_by_block_number_and_index` (eth.rs, lines
396-410): `Pending` maps to the distinct `PendingOrBlock::Pending` case, all
other references to concrete block ids. -/
def transaction_by_block_number_and_index (c : Client) (num : BlockNumber)
    (index : Nat) : Except RpcError (Option WireTransaction) :=
  let block_id :=
    match num with
    | .Latest => PendingOrBlock.Block .Latest
    | .Earliest => PendingOrBlock.Block .Earliest
    | .Num n => PendingOrBlock.Block (.Number n)
    | .Pending => PendingOrBlock.Pending
  transaction c (.Location block_id index)

/-- C10: for the `Pending` reference, `transaction_by_block_number_and_index`
returns `Ok(None)` for every index and every backend state — `Pending` is not
collapsed to `Latest` here — while for `Latest` the backend's transaction at
that location is returned when it exists. -/
theorem transaction_by_number_pending_is_none (c : Client) (index : Nat) :
    transaction_by_block_number_and_index c BlockNumber.Pending index =
      Except.ok none ∧
    (∀ t : Nat, c.transaction (.Location BlockId.Latest index) = some t →
      transaction_by_block_number_and_index c BlockNumber.Latest index =
        Except.ok (some (from_localized t))) := by
  refine ⟨rfl, ?_⟩
  intro t ht
  simp [transaction_by_block_number_and_index, transaction, ht]

/-- A backend whose latest block has transaction 42 at position 0. -/
def latestTxClient : Client :=
  { inChainClient with
    transaction := fun id =>
      if id = TransactionId.Location BlockId.Latest 0 then some 42 else none }

/-- Witness for C10: even though the latest block holds a transaction at
index 0, asking at `Pending` yields `Ok(None)`. -/
theorem transaction_by_number_pending_is_none_witness :
    transaction_by_block_number_and_index latestTxClient BlockNumber.Pending 0 =
      Except.ok none ∧
    transaction_by_block_number_and_index latestTxClient BlockNumber.Latest 0 =
      Except.ok (some (from_localized 42)) :=
  ⟨(transaction_by_number_pending_is_none latestTxClient 0).1,
   (transaction_by_number_pending_is_none latestTxClient 0).2 42 rfl⟩

/-- The subscriber registry (`parity_rpc::v1::helpers::Subscribers`, an
external collaborator): a map from subscription id to subscriber state with
fresh-id insertion and removal by id. Ids are modelled as `Nat`s issued from
a counter; entries as an association list. -/
structure Subscribers (α : Type) where
  nextId : Nat
  entries : List (Nat × α)
deriving DecidableEq, Repr

/-- Insert under a fresh id; returns the updated registry and the id. -/
def Subscribers.push {α : Type} (s : Subscribers α) (value : α) :
    Subscribers α × Nat :=
  (⟨s.nextId + 1, s.entries ++ [(s.nextId, value)]⟩, s.nextId)

/-- Remove by id; returns the updated registry and the removed value. -/
def Subscribers.remove {α : Type} (s : Subscribers α) (id : Nat) :
    Subscribers α × Option α :=
  (⟨s.nextId, s.entries.filter (fun e => e.1 != id)⟩,
   (s.entries.find? (fun e => e.1 == id)).map (fun e => e.2))

/-- Whether an id is present. -/
def Subscribers.containsId {α : Type} (s : Subscribers α) (id : Nat) : Bool :=
  s.entries.any (fun e => e.1 == id)

/-- The empty registry. -/
def Subscribers.empty {α : Type} : Subscribers α :=
  ⟨0, []⟩

/-- The two independent subscriber collections of `EthPubSubClient`
(eth_pubsub.rs, lines 46-50): head subscribers hold a sink (modelled as a
`Nat` token), log subscribers hold a `(sink, filter)` pair. -/
structure PubSubState where
  heads_subscribers : Subscribers Nat
  logs_subscribers : Subscribers (Nat × EthFilter)
deriving DecidableEq, Repr

/-- The empty pub-sub state. -/
def PubSubState.empty : PubSubState :=
  ⟨Subscribers.empty, Subscribers.empty⟩

/-- `parity_rpc::v1::types::pubsub::Kind`. -/
inductive Kind where
  | NewHeads : Kind
  | Logs : Kind
  | NewPendingTransactions : Kind
  | Syncing : Kind
deriving DecidableEq, Repr

/-- `parity_rpc::v1::types::pubsub::Params`; the wire filter carried by the
`Logs` variant is modelled post-translation (`filter.into()`) as the
backend-native filter it registers. -/
inductive Params where
  | None : Params
  | Logs : EthFilter → Params
deriving DecidableEq, Repr

/-- Outcome of a `subscribe` call as observed by the subscriber: assigned an
id, acknowledged without registration, or rejected with an error. -/
inductive SubOutcome where
  | Registered : Nat → SubOutcome
  | Accepted : SubOutcome
  | Rejected : RpcError → SubOutcome
deriving DecidableEq, Repr

/-- `EthPubSubClient::subscribe` (eth_pubsub.rs, lines 162-200): the
kind/parameter dispatch, including the source's `InvalidParams` rejection of
`NewPendingTransactions` with parameters and the catch-all `Unimplemented`
arm (reachable for the `Syncing` kind). -/
def subscribe (st : PubSubState) (sink : Nat) (kind : Kind)
    (params : Option Params) : PubSubState × SubOutcome :=
  match kind, params with
  | .NewHeads, none =>
    let p := st.heads_subscribers.push sink
    ({ st with heads_subscribers := p.1 }, .Registered p.2)
  | .NewHeads, _ =>
    (st, .Rejected (.InvalidParams "newHeads" "Expected no parameters."))
  | .Logs, some (.Logs filter) =>
    let p := st.logs_subscribers.push (sink, filter)
    ({ st with logs_subscribers := p.1 }, .Registered p.2)
  | .Logs, _ =>
    (st, .Rejected (.InvalidParams "logs" "Expected a filter object."))
  | .NewPendingTransactions, none => (st, .Accepted)
  | .NewPendingTransactions, _ =>
    (st, .Rejected
      (.InvalidParams "newPendingTransactions" "Expected no parameters."))
  | .Syncing, _ => (st, .Rejected .Unimplemented)

/-- `EthPubSubClient::unsubscribe` (eth_pubsub.rs, lines 202-209): remove the
id from both collections and report whether either removal succeeded; the
call itself always returns `Ok`. -/
def unsubscribe (st : PubSubState) (id : Nat) :
    PubSubState × Except RpcError Bool :=
  let r1 := st.heads_subscribers.remove id
  let r2 := st.logs_subscribers.remove id
  (⟨r1.1, r2.1⟩, .ok (r1.2.isSome || r2.2.isSome))

theorem Subscribers.find_isSome_eq_any {α : Type} (l : List (Nat × α))
    (id : Nat) :
    (l.find? (fun e => e.1 == id)).isSome = l.any (fun e => e.1 == id) := by
  induction l with
  | nil => rfl
  | cons head tail ih =>
    rw [List.find?_cons, List.any_cons]
    cases hb : head.1 == id
    · rw [Bool.false_or]
      exact ih
    · rfl

theorem Subscribers.filter_not_contains {α : Type} (l : List (Nat × α))
    (id : Nat) :
    (l.filter (fun e => e.1 != id)).any (fun e => e.1 == id) = false := by
  induction l with
  | nil => rfl
  | cons head tail ih =>
    rw [List.filter_cons]
    cases hb : head.1 == id
    · have hne : ((fun e => e.1 != id) head) = true := by
        show (head.1 != id) = true
        rw [bne, hb]
        rfl
      rw [if_pos hne, List.any_cons, hb, Bool.false_or]
      exact ih
    · have hne : (head.1 != id) = false := by
        rw [bne, hb]
        rfl
      rw [if_neg (by rw [hne]; exact Bool.false_ne_true)]
      exact ih

theorem Subscribers.isSome_map {α β : Type} (o : Option α) (f : α → β) :
    (o.map f).isSome = o.isSome := by
  cases o <;> rfl

/-- C7: `unsubscribe` always returns `Ok`; the reported boolean is true
exactly when the id was present in the heads or the logs collection; the id
is absent from both collections afterwards; in particular an id present in
neither collection yields `Ok(false)`. -/
theorem unsubscribe_spec (st : PubSubState) (id : Nat) :
    (unsubscribe st id).2 =
      Except.ok (st.heads_subscribers.containsId id ||
        st.logs_subscribers.containsId id) ∧
    (unsubscribe st id).1.heads_subscribers.containsId id = false ∧
    (unsubscribe st id).1.logs_subscribers.containsId id = false := by
  refine ⟨?_, ?_, ?_⟩
  · simp only [unsubscribe, Subscribers.remove, Subscribers.containsId]
    rw [Subscribers.isSome_map, Subscribers.isSome_map,
      Subscribers.find_isSome_eq_any, Subscribers.find_isSome_eq_any]
  · simp only [unsubscribe, Subscribers.remove, Subscribers.containsId]
    exact Subscribers.filter_not_contains _ id
  · simp only [unsubscribe, Subscribers.remove, Subscribers.containsId]
    exact Subscribers.filter_not_contains _ id

/-- C6 counterexample: `NewPendingTransactions` with a (non-empty) parameter
is rejected with `InvalidParams`, not with `Unimplemented` as the claim's
catch-all asserts. -/
theorem subscribe_counterexample :
    (subscribe PubSubState.empty 0 Kind.NewPendingTransactions
        (some Params.None)).2 =
      SubOutcome.Rejected (RpcError.InvalidParams "newPendingTransactions"
        "Expected no parameters.") ∧
    (subscribe PubSubState.empty 0 Kind.NewPendingTransactions
        (some Params.None)).2 ≠
      SubOutcome.Rejected RpcError.Unimplemented := by
  exact ⟨rfl, by decide⟩

/-- C6 (amended): the full kind/parameter dispatch of `subscribe`.
`NewHeads` with no parameters registers a head subscriber; `NewHeads` with
any parameters is rejected with `InvalidParams` and registers nothing; `Logs`
with a filter object registers a `(sink, filter)` log subscriber; `Logs`
without a filter is rejected with `InvalidParams`; `NewPendingTransactions`
with no parameters is a pure no-op acknowledgment; `NewPendingTransactions`
with parameters is rejected with `InvalidParams`; the remaining kind
(`Syncing`) is rejected with `Unimplemented`. Rejections leave the registry
unchanged. -/
theorem subscribe_spec (st : PubSubState) (sink : Nat) :
    ((subscribe st sink Kind.NewHeads none).2 =
        SubOutcome.Registered st.heads_subscribers.nextId ∧
      (subscribe st sink Kind.NewHeads none).1.heads_subscribers =
        (st.heads_subscribers.push sink).1 ∧
      (subscribe st sink Kind.NewHeads none).1.logs_subscribers =
        st.logs_subscribers) ∧
    (∀ p : Params, subscribe st sink Kind.NewHeads (some p) =
      (st, SubOutcome.Rejected
        (RpcError.InvalidParams "newHeads" "Expected no parameters."))) ∧
    (∀ filter : EthFilter,
      (subscribe st sink Kind.Logs (some (Params.Logs filter))).2 =
        SubOutcome.Registered st.logs_subscribers.nextId ∧
      (subscribe st sink Kind.Logs (some (Params.Logs filter))).1.logs_subscribers =
        (st.logs_subscribers.push (sink, filter)).1 ∧
      (subscribe st sink Kind.Logs (some (Params.Logs filter))).1.heads_subscribers =
        st.heads_subscribers) ∧
    (subscribe st sink Kind.Logs none =
      (st, SubOutcome.Rejected
        (RpcError.InvalidParams "logs" "Expected a filter object."))) ∧
    (subscribe st sink Kind.Logs (some Params.None) =
      (st, SubOutcome.Rejected
        (RpcError.InvalidParams "logs" "Expected a filter object."))) ∧
    (subscribe st sink Kind.NewPendingTransactions none =
      (st, SubOutcome.Accepted)) ∧
    (∀ p : Params, subscribe st sink Kind.NewPendingTransactions (some p) =
      (st, SubOutcome.Rejected (RpcError.InvalidParams "newPendingTransactions"
        "Expected no parameters."))) ∧
    (∀ p : Option Params, subscribe st sink Kind.Syncing p =
      (st, SubOutcome.Rejected RpcError.Unimplemented)) := by
  refine ⟨⟨rfl, rfl, rfl⟩, ?_, fun filter => ⟨rfl, rfl, rfl⟩, rfl, rfl, rfl,
    ?_, ?_⟩
  · intro p
    cases p <;> rfl
  · intro p
    cases p <;> rfl
  · intro p
    cases p with
    | none => rfl
    | some q => cases q <;> rfl

/-- Modelled from the spec: the backend's numeric view of a concrete block
id, supporting the range-comparison helpers `Client::max_block_number` and
`Client::min_block_number` of the gateway's client crate (which is not under
src/): `Earliest` is block 0, `Latest` is the best block, a hash resolves to
the number of the block it names. -/
def Client.block_id_number (c : Client) (id : BlockId) : Nat :=
  match id with
  | .Number n => n
  | .Earliest => 0
  | .Latest => c.best_block_number
  | .Hash h => c.hash_block_number h

/-- Modelled from the spec: `Client::max_block_number` (gateway client crate,
not under src/) — "effective from_block = max of the two lower bounds". -/
def Client.max_block_number (c : Client) (a b : BlockId) : BlockId :=
  .Number (Nat.max (c.block_id_number a) (c.block_id_number b))

/-- Modelled from the spec: `Client::min_block_number` (gateway client crate,
not under src/) — "effective to_block = min of the two upper bounds". -/
def Client.min_block_number (c : Client) (a b : BlockId) : BlockId :=
  .Number (Nat.min (c.block_id_number a) (c.block_id_number b))

/-- The per-subscriber filter clamping performed by
`ChainNotificationHandler::notify_logs` (eth_pubsub.rs, lines 127-140): a
`Latest` placeholder in `from_block`/`to_block` is replaced by the notified
endpoint, then the resulting range is intersected with the notified range. -/
def clamp_filter (c : Client) (filter : EthFilter)
    (from_block to_block : BlockId) : EthFilter :=
  let f1 :=
    if filter.from_block = BlockId.Latest then
      { filter with from_block := from_block }
    else filter
  let f2 :=
    if f1.to_block = BlockId.Latest then
      { f1 with to_block := to_block }
    else f1
  { f2 with
    from_block := c.max_block_number f2.from_block from_block,
    to_block := c.min_block_number f2.to_block to_block }

/-- `ChainNotificationHandler::notify_logs` (eth_pubsub.rs, lines 125-156):
for each registered `(sink, filter)` pair, execute the clamped filter against
the backend and push each resulting log, in backend order, to that sink. -/
def notify_logs (c : Client) (subscribers : List (Nat × EthFilter))
    (from_block to_block : BlockId) : List (Nat × List Nat) :=
  subscribers.map
    (fun sf => (sf.1, c.logs (clamp_filter c sf.2 from_block to_block)))

/-- C1: for every stored subscriber filter and notified range
`[fromN, toN]`, the effective filter the dispatcher executes has concrete
numeric bounds that never widen the configured ones: the lower bound is at
least `fromN` (and equals `max k fromN` when the filter was configured with
`from_block = Number k`, hence 100 for `k = 50` on a notification spanning
[100,105]), the upper bound is at most `toN`, and a `Latest` placeholder is
narrowed exactly to the notified endpoint; the dispatcher pushes to that
subscriber precisely the backend's logs for this clamped filter. -/
theorem notify_logs_clamp_spec (c : Client)
    (subscribers : List (Nat × EthFilter)) (sink : Nat) (filter : EthFilter)
    (fromN toN : Nat) (hmem : (sink, filter) ∈ subscribers) :
    ∃ a b : Nat,
      (clamp_filter c filter (.Number fromN) (.Number toN)).from_block =
        BlockId.Number a ∧
      (clamp_filter c filter (.Number fromN) (.Number toN)).to_block =
        BlockId.Number b ∧
      fromN ≤ a ∧ b ≤ toN ∧
      (∀ k : Nat, filter.from_block = BlockId.Number k → a = Nat.max k fromN) ∧
      (∀ k : Nat, filter.to_block = BlockId.Number k → b = Nat.min k toN) ∧
      (filter.from_block = BlockId.Latest → a = fromN) ∧
      (filter.to_block = BlockId.Latest → b = toN) ∧
      (sink, c.logs (clamp_filter c filter (.Number fromN) (.Number toN))) ∈
        notify_logs c subscribers (.Number fromN) (.Number toN) := by
  have hpush : (sink, c.logs (clamp_filter c filter (.Number fromN)
      (.Number toN))) ∈ notify_logs c subscribers (.Number fromN)
      (.Number toN) := by
    unfold notify_logs
    exact List.mem_map_of_mem _ hmem
  by_cases hf : filter.from_block = BlockId.Latest <;>
    by_cases ht : filter.to_block = BlockId.Latest
  · refine ⟨fromN, toN, ?_, ?_, le_refl _, le_refl _, ?_, ?_, ?_, ?_, hpush⟩
    · simp [clamp_filter, hf, ht, Client.max_block_number,
        Client.block_id_number]
    · simp [clamp_filter, hf, ht, Client.min_block_number,
        Client.block_id_number]
    · intro k hk
      rw [hf] at hk
      exact absurd hk (by simp)
    · intro k hk
      rw [ht] at hk
      exact absurd hk (by simp)
    · intro _
      rfl
    · intro _
      rfl
  · refine ⟨fromN,
      Nat.min (c.block_id_number filter.to_block) toN, ?_, ?_,
      le_refl _, Nat.min_le_right _ _, ?_, ?_, ?_, ?_, hpush⟩
    · simp [clamp_filter, hf, ht, Client.max_block_number,
        Client.block_id_number]
    · simp [clamp_filter, hf, ht, Client.min_block_number,
        Client.block_id_number]
    · intro k hk
      rw [hf] at hk
      exact absurd hk (by simp)
    · intro k hk
      rw [hk, Client.block_id_number]
    · intro _
      rfl
    · intro hlat
      exact absurd hlat ht
  · refine ⟨Nat.max (c.block_id_number filter.from_block) fromN, toN, ?_, ?_,
      Nat.le_max_right _ _, le_refl _, ?_, ?_, ?_, ?_, hpush⟩
    · simp [clamp_filter, hf, ht, Client.max_block_number,
        Client.block_id_number]
    · simp [clamp_filter, hf, ht, Client.min_block_number,
        Client.block_id_number]
    · intro k hk
      rw [hk, Client.block_id_number]
    · intro k hk
      rw [ht] at hk
      exact absurd hk (by simp)
    · intro hlat
      exact absurd hlat hf
    · intro _
      rfl
  · refine ⟨Nat.max (c.block_id_number filter.from_block) fromN,
      Nat.min (c.block_id_number filter.to_block) toN, ?_, ?_,
      Nat.le_max_right _ _, Nat.min_le_right _ _, ?_, ?_, ?_, ?_, hpush⟩
    · simp [clamp_filter, hf, ht, Client.max_block_number,
        Client.block_id_number]
    · simp [clamp_filter, hf, ht, Client.min_block_number,
        Client.block_id_number]
    · intro k hk
      rw [hk, Client.block_id_number]
    · intro k hk
      rw [hk, Client.block_id_number]
    · intro hlat
      exact absurd hlat hf
    · intro hlat
      exact absurd hlat ht

/-- The claim's concrete example filter: `from_block = Number(50)`, open
upper bound. -/
def exampleFilter : EthFilter :=
  ⟨BlockId.Number 50, BlockId.Latest, none, [], none⟩

/-- Witness for C1 at the claim's concrete inputs: on a notification spanning
[100,105], a filter configured with `from_block = Number(50)` is clamped to
an effective lower bound of 100 (not 50), and its `Latest` upper bound to
105. -/
theorem notify_logs_clamp_spec_witness :
    ∃ a b : Nat,
      (clamp_filter inChainClient exampleFilter (.Number 100)
          (.Number 105)).from_block = BlockId.Number a ∧
      (clamp_filter inChainClient exampleFilter (.Number 100)
          (.Number 105)).to_block = BlockId.Number b ∧
      100 ≤ a ∧ b ≤ 105 ∧
      (∀ k : Nat, exampleFilter.from_block = BlockId.Number k →
        a = Nat.max k 100) ∧
      (∀ k : Nat, exampleFilter.to_block = BlockId.Number k →
        b = Nat.min k 105) ∧
      (exampleFilter.from_block = BlockId.Latest → a = 100) ∧
      (exampleFilter.to_block = BlockId.Latest → b = 105) ∧
      (7, inChainClient.logs (clamp_filter inChainClient exampleFilter
          (.Number 100) (.Number 105))) ∈
        notify_logs inChainClient [(7, exampleFilter)] (.Number 100)
          (.Number 105) :=
  notify_logs_clamp_spec inChainClient [(7, exampleFilter)] 7 exampleFilter
    100 105 (List.mem_singleton.mpr rfl)

/-- A hex string of `n` zero digits with the `0x` prefix: the rendering of a
defaulted `H256`/`H64` by `format!("0x{:?}", ..)` in notify_heads. -/
def zero_hex (n : Nat) : String :=
  "0x" ++ String.mk (List.replicate n '0')

/-- The compatibility extra-info map built per pushed header
(eth_pubsub.rs, lines 109-111): `mixHash` and `nonce` filled with
zero/default values ("geth will fail to decode the response unless it has a
number of fields even if they aren't relevant"). The list order matches the
`BTreeMap` iteration order ("mixHash" < "nonce"). -/
def default_extra_info : List (String × String) :=
  [("mixHash", zero_hex 64), ("nonce", zero_hex 16)]

/-- Wire-level rich header (`parity_rpc::v1::types::RichHeader`): the encoded
header (opaque) plus the extra-info map. -/
structure RichHeader where
  inner : Nat
  extra_info : List (String × String)
deriving DecidableEq, Repr

/-- `pubsub::Result`: a pushed event is either a header or a log. -/
inductive PubSubResult where
  | Header : RichHeader → PubSubResult
  | Log : Nat → PubSubResult
deriving DecidableEq, Repr

/-- `ChainNotificationHandler::notify_heads` (eth_pubsub.rs, lines 100-123):
for each head subscriber, for each new header in block order, spawn a push of
the wire header with the default-filled extra-info fields. The result lists
every spawned push task `(sink, event)` in spawn order. -/
def notify_heads (subscribers : List Nat) (headers : List Nat) :
    List (Nat × PubSubResult) :=
  subscribers.flatMap
    (fun sink => headers.map
      (fun h => (sink, PubSubResult.Header ⟨h, default_extra_info⟩)))

theorem notify_heads_cons (x : Nat) (rest : List Nat) (headers : List Nat) :
    notify_heads (x :: rest) headers =
      headers.map (fun h => (x, PubSubResult.Header ⟨h, default_extra_info⟩))
        ++ notify_heads rest headers := by
  simp [notify_heads]

/-- The events pushed to one subscriber, in order. -/
def pushes_to (sink : Nat) (pushes : List (Nat × PubSubResult)) :
    List PubSubResult :=
  (pushes.filter (fun p => p.1 == sink)).map (fun p => p.2)

/-- Fire-and-forget delivery (`ChainNotificationHandler::notify`,
eth_pubsub.rs, lines 85-93): each spawned push succeeds or fails according to
its own sink alone; a failure is logged and swallowed, so the delivered
events are the spawned ones whose sink accepts. -/
def deliver (ok : Nat → Bool) (pushes : List (Nat × PubSubResult)) :
    List (Nat × PubSubResult) :=
  pushes.filter (fun p => ok p.1)

theorem pushes_to_nil_of_append (sink : Nat)
    (l1 l2 : List (Nat × PubSubResult)) :
    pushes_to sink (l1 ++ l2) = pushes_to sink l1 ++ pushes_to sink l2 := by
  simp [pushes_to, List.filter_append]

theorem pushes_to_block (sink x : Nat) (headers : List Nat)
    (f : Nat → PubSubResult) :
    pushes_to sink (headers.map (fun h => (x, f h))) =
      if x = sink then headers.map f else [] := by
  induction headers with
  | nil => by_cases hx : x = sink <;> simp [pushes_to, hx]
  | cons h t ih =>
    by_cases hx : x = sink <;> simp_all [pushes_to, hx]

theorem pushes_to_notify_heads_of_not_mem (sink : Nat)
    (subscribers : List Nat) (headers : List Nat)
    (hnot : sink ∉ subscribers) :
    pushes_to sink (notify_heads subscribers headers) = [] := by
  induction subscribers with
  | nil => rfl
  | cons x rest ih =>
    have hx : x ≠ sink := fun h => hnot (h ▸ List.mem_cons_self x rest)
    have hrest : sink ∉ rest := fun h => hnot (List.mem_cons_of_mem x h)
    rw [notify_heads_cons, pushes_to_nil_of_append, pushes_to_block,
      if_neg hx, ih hrest]
    rfl

theorem pushes_to_deliver (sink : Nat) (ok : Nat → Bool)
    (pushes : List (Nat × PubSubResult)) :
    pushes_to sink (deliver ok pushes) =
      (if ok sink then pushes_to sink pushes else []) := by
  induction pushes with
  | nil => cases hok : ok sink <;> simp [pushes_to, deliver]
  | cons p t ih =>
    by_cases hp : p.1 = sink <;> cases hok : ok p.1 <;>
      simp_all [pushes_to, deliver]

/-- C8: on a heads notification carrying `headers` (N of them), each head
subscriber is pushed exactly one header event per header, N in total, in
block order, each filled with the default `mixHash`/`nonce` compatibility
fields; and the events delivered to a subscriber depend only on that
subscriber's own sink outcome, so a delivery failure elsewhere leaves them
unchanged. -/
theorem notify_heads_spec (subscribers : List Nat) (headers : List Nat)
    (sink : Nat) (hmem : sink ∈ subscribers) (hnodup : subscribers.Nodup) :
    pushes_to sink (notify_heads subscribers headers) =
      headers.map (fun h => PubSubResult.Header ⟨h, default_extra_info⟩) ∧
    (pushes_to sink (notify_heads subscribers headers)).length =
      headers.length ∧
    default_extra_info.lookup "mixHash" = some (zero_hex 64) ∧
    default_extra_info.lookup "nonce" = some (zero_hex 16) ∧
    (∀ ok okOther : Nat → Bool, ok sink = okOther sink →
      pushes_to sink (deliver ok (notify_heads subscribers headers)) =
        pushes_to sink (deliver okOther (notify_heads subscribers headers))) := by
  have hmain : pushes_to sink (notify_heads subscribers headers) =
      headers.map (fun h => PubSubResult.Header ⟨h, default_extra_info⟩) := by
    induction subscribers with
    | nil => exact absurd hmem (List.not_mem_nil sink)
    | cons x rest ih =>
      rw [notify_heads_cons, pushes_to_nil_of_append, pushes_to_block]
      by_cases hx : x = sink
      · rw [if_pos hx]
        have hrest : sink ∉ rest := by
          rw [← hx]
          exact (List.nodup_cons.mp hnodup).1
        rw [pushes_to_notify_heads_of_not_mem sink rest headers hrest,
          List.append_nil]
      · rw [if_neg hx, List.nil_append]
        have hmem2 : sink ∈ rest := by
          cases List.mem_cons.mp hmem with
          | inl h => exact absurd h.symm hx
          | inr h => exact h
        exact ih hmem2 (List.nodup_cons.mp hnodup).2
  refine ⟨hmain, by rw [hmain, List.length_map], rfl, rfl, ?_⟩
  intro ok okOther hok
  rw [pushes_to_deliver, pushes_to_deliver, hok]

/-- Witness for C8: two subscribers, two headers; subscriber 1 receives
exactly its two header events. -/
theorem notify_heads_spec_witness :
    pushes_to 1 (notify_heads [1, 2] [41, 42]) =
      [PubSubResult.Header ⟨41, default_extra_info⟩,
       PubSubResult.Header ⟨42, default_extra_info⟩] ∧
    default_extra_info.lookup "mixHash" = some (zero_hex 64) :=
  ⟨(notify_heads_spec [1, 2] [41, 42] 1 (by decide) (by decide)).1,
   (notify_heads_spec [1, 2] [41, 42] 1 (by decide) (by decide)).2.2.1⟩

/-- Wire-level log filter (`parity_rpc::v1::types::Filter`) as the one-shot
`eth_getLogs` path receives it; bounds are wire block references. -/
structure WireFilter where
  from_block : BlockNumber
  to_block : BlockNumber
  address : Option (List Nat)
  topics : List (Option (List Nat))
  limit : Option Nat
deriving DecidableEq, Repr

/-- `EthClient::logs` (eth.rs, lines 444-455): translate the wire filter into
the backend's native type (`filter.into()`, external serialization, passed in
as `toNative`), execute it against the backend exactly as translated, map
each entry into the wire log shape (`toWireLog`, external), then apply the
filter's optional result-count limit via the external `limit_logs` policy
(treated as given, passed in as `limitLogs`). -/
def eth_logs (toNative : WireFilter → EthFilter) (toWireLog : Nat → Nat)
    (limitLogs : List Nat → Option Nat → List Nat) (c : Client)
    (filter : WireFilter) : List Nat :=
  let native := toNative filter
  let wire := (c.logs native).map toWireLog
  limitLogs wire native.limit

/-- The spec's description of the one-shot query pipeline (§4.3
`logs(filter)`), as a composition: execute the translated filter as given —
no clamp-to-notified-range substitution — map to wire shape, then truncate
via `limit_logs`. -/
def logs_pipeline_spec (toNative : WireFilter → EthFilter)
    (toWireLog : Nat → Nat) (limitLogs : List Nat → Option Nat → List Nat)
    (c : Client) (filter : WireFilter) : List Nat :=
  limitLogs ((c.logs (toNative filter)).map toWireLog) (toNative filter).limit

/-- C9: the one-shot logs query refines the spec pipeline for every
translation, wire mapping, limit policy, backend and filter: the backend
executes exactly the translated filter (in particular its bounds are passed
through untouched, with no clamp-to-notified-range substitution as in the
subscription dispatch path) and the limit truncation is applied by the
external `limit_logs` policy after the wire mapping. -/
theorem eth_logs_refines_pipeline (toNative : WireFilter → EthFilter)
    (toWireLog : Nat → Nat) (limitLogs : List Nat → Option Nat → List Nat)
    (c : Client) (filter : WireFilter) :
    eth_logs toNative toWireLog limitLogs c filter =
      logs_pipeline_spec toNative toWireLog limitLogs c filter := by
  rfl

end Gateway
